import Mathlib

/-!
# Shallow embedding of `numbernames.py`

This file embeds the number-naming program `src/numbernames.py` in Lean and
proves properties of it.  The program converts a non-negative integer, given
as a digit string, into its short-scale English name, synthesising Latin
"...illion" scale-words for arbitrary zillion indices following Conway & Guy.

Modelling conventions:
* Python strings are modelled as `String` (for names) and `List Char`
  (for digit-string inputs, where per-character reasoning is needed).
* Python dictionaries with a fixed key domain become `Option`-valued
  functions; a `none` result corresponds to a `KeyError` (or, for
  `tuple`-unpacking of a group of the wrong length, a `ValueError`).
  Any Python exception surfaces as `none`.
* Python integers are `Nat` (all quantities involved are non-negative;
  `//` is `Nat` division, `%` is `Nat` mod).
* The mutable memo caches: `zillion_suffix_cache` is never written by the
  program, and `name_of_units_cache` is never written either, so both are
  embedded as their (constant) initial contents.
  `partial_single_zillion_suffix_cache` is written, but only ever with the
  value the function itself computes, so the function is embedded as the
  pure function determined by the initial cache (the special-cased table
  for 0..9 plus the 0 ↦ "nilli" override).  The top-level `name_of_cache`
  genuinely affects observable behaviour, so `name_of` is embedded with an
  explicit cache argument threaded through (an association list with the
  most recent binding first, matching dictionary update order for lookups).
-/

namespace NumberNames

/-- Latin-morpheme tables of class `ZillionNames` (numbernames.py lines 13-35).
`HUNDREDS[d]` for the hundreds digit `d` of a zillion index. -/
def ZillionNames.HUNDREDS : Nat → Option String
  | 0 => some ""
  | 1 => some "centi"
  | 2 => some "ducenti"
  | 3 => some "trecenti"
  | 4 => some "quadrigenti"
  | 5 => some "quingenti"
  | 6 => some "sescenti"
  | 7 => some "septigenti"
  | 8 => some "octigenti"
  | 9 => some "nongenti"
  | _ => none

/-- Table `ZillionNames.TENS` (numbernames.py lines 18-21). -/
def ZillionNames.TENS : Nat → Option String
  | 0 => some ""
  | 1 => some "deci"
  | 2 => some "viginti"
  | 3 => some "triginta"
  | 4 => some "quadraginta"
  | 5 => some "quinquaginta"
  | 6 => some "sexaginta"
  | 7 => some "septuaginta"
  | 8 => some "octoginta"
  | 9 => some "nonaginta"
  | _ => none

/-- Table `ZillionNames.UNITS` (numbernames.py lines 22-25). -/
def ZillionNames.UNITS : Nat → Option String
  | 0 => some ""
  | 1 => some "un"
  | 2 => some "duo"
  | 3 => some "tre"
  | 4 => some "quattuor"
  | 5 => some "quinqua"
  | 6 => some "se"
  | 7 => some "septe"
  | 8 => some "octo"
  | 9 => some "nove"
  | _ => none

/-- Classification set `S = {TENS[2], TENS[3], TENS[4], TENS[5], HUNDREDS[3],
HUNDREDS[4], HUNDREDS[5]}` (numbernames.py line 26). -/
def ZillionNames.S : List String :=
  [(ZillionNames.TENS 2).getD "", (ZillionNames.TENS 3).getD "",
   (ZillionNames.TENS 4).getD "", (ZillionNames.TENS 5).getD "",
   (ZillionNames.HUNDREDS 3).getD "", (ZillionNames.HUNDREDS 4).getD "",
   (ZillionNames.HUNDREDS 5).getD ""]

/-- Classification set `X = {TENS[8], HUNDREDS[1], HUNDREDS[8]}`
(numbernames.py line 27). -/
def ZillionNames.X : List String :=
  [(ZillionNames.TENS 8).getD "", (ZillionNames.HUNDREDS 1).getD "",
   (ZillionNames.HUNDREDS 8).getD ""]

/-- Classification set `M = {TENS[2], TENS[8], HUNDREDS[8]}`
(numbernames.py line 28). -/
def ZillionNames.M : List String :=
  [(ZillionNames.TENS 2).getD "", (ZillionNames.TENS 8).getD "",
   (ZillionNames.HUNDREDS 8).getD ""]

/-- Classification set `N = {TENS[1], TENS[3], TENS[4], TENS[5], TENS[6],
HUNDREDS[1], ..., HUNDREDS[7]}` (numbernames.py lines 32-35). -/
def ZillionNames.N : List String :=
  [(ZillionNames.TENS 1).getD "", (ZillionNames.TENS 3).getD "",
   (ZillionNames.TENS 4).getD "", (ZillionNames.TENS 5).getD "",
   (ZillionNames.TENS 6).getD "",
   (ZillionNames.HUNDREDS 1).getD "", (ZillionNames.HUNDREDS 2).getD "",
   (ZillionNames.HUNDREDS 3).getD "", (ZillionNames.HUNDREDS 4).getD "",
   (ZillionNames.HUNDREDS 5).getD "", (ZillionNames.HUNDREDS 6).getD "",
   (ZillionNames.HUNDREDS 7).getD ""]

/-- Table `UnitNames.UNITS` (numbernames.py lines 39-42); keys are the digit
characters `'1'..'9'`, every other character is a `KeyError` (`none`). -/
def UnitNames.UNITS : Char → Option String
  | '1' => some "one"
  | '2' => some "two"
  | '3' => some "three"
  | '4' => some "four"
  | '5' => some "five"
  | '6' => some "six"
  | '7' => some "seven"
  | '8' => some "eight"
  | '9' => some "nine"
  | _ => none

/-- Table `UnitNames.TEENS` (numbernames.py lines 43-46). -/
def UnitNames.TEENS : Char → Option String
  | '1' => some "eleven"
  | '2' => some "twelve"
  | '3' => some "thirteen"
  | '4' => some "fourteen"
  | '5' => some "fifteen"
  | '6' => some "sixteen"
  | '7' => some "seventeen"
  | '8' => some "eighteen"
  | '9' => some "nineteen"
  | _ => none

/-- Table `UnitNames.TENS` (numbernames.py lines 47-50). -/
def UnitNames.TENS : Char → Option String
  | '1' => some "ten"
  | '2' => some "twenty"
  | '3' => some "thirty"
  | '4' => some "forty"
  | '5' => some "fifty"
  | '6' => some "sixty"
  | '7' => some "seventy"
  | '8' => some "eighty"
  | '9' => some "ninety"
  | _ => none

/-- The initial (and, as the function never writes back, constant) contents of
`zillion_suffix_cache` (numbernames.py lines 83-86). -/
def zillion_suffix_cache : Nat → Option String
  | 0 => some "thousand"
  | 1 => some "million"
  | 2 => some "billion"
  | 3 => some "trillion"
  | 4 => some "quadrillion"
  | 5 => some "quintillion"
  | 6 => some "sextillion"
  | 7 => some "septillion"
  | 8 => some "octillion"
  | 9 => some "nonillion"
  | _ => none

/-- The initial contents of `partial_single_zillion_suffix_cache`
(numbernames.py lines 101-102): `{n: s[:-2] for n, s in
zillion_suffix_cache.items()}` with the `0 ↦ "nilli"` override. -/
def single_zillion_suffix_cache (n : Nat) : Option String :=
  if n = 0 then some "nilli"
  else (zillion_suffix_cache n).map (fun s => s.dropRight 2)

/-- The euphonic-correction block of `partial_single_zillion_suffix`
(numbernames.py lines 111-123): mutate `parts[0]` (the units stem) according
to `parts[1]` (the nonempty lower neighbour) when the filtered list has more
than one element.  Note the source literally tests membership of `parts[0]`
in the set `{'setpe', 'nove'}` — `'setpe'` is as written on line 119. -/
def correctUnitsStem : List String → List String
  | p0 :: p1 :: rest =>
    if p0 = "tre" ∧ (p1 ∈ ZillionNames.S ∨ p1 ∈ ZillionNames.X) then
      (p0 ++ "s") :: p1 :: rest
    else if p0 = "se" then
      (if p1 ∈ ZillionNames.S then p0 ++ "s"
       else if p1 ∈ ZillionNames.X then p0 ++ "x"
       else p0) :: p1 :: rest
    else if p0 = "setpe" ∨ p0 = "nove" then
      (if p1 ∈ ZillionNames.M then p0 ++ "m"
       else if p1 ∈ ZillionNames.N then p0 ++ "n"
       else p0) :: p1 :: rest
    else p0 :: p1 :: rest
  | parts => parts

/-- The general (cache-miss) branch of `partial_single_zillion_suffix`
(numbernames.py lines 109-124): look up the three positional stems, filter
out empty ones, apply the euphonic correction, join, drop the final
character, and append `"illi"`. -/
def single_zillion_general (n : Nat) : Option String := do
  let u ← ZillionNames.UNITS (n % 10)
  let t ← ZillionNames.TENS (n % 100 / 10)
  let h ← ZillionNames.HUNDREDS (n / 100)
  let parts1 := (([u, t, h] : List String)).filter (fun s => s != "")
  let parts2 := correctUnitsStem parts1
  pure ((String.join parts2).dropRight 1 ++ "illi")

/-- Function `partial_single_zillion_suffix` (numbernames.py lines 105-126).  The
write-back on line 125 stores exactly the value computed here, so the
function is embedded as the pure function determined by the initial cache. -/
def single_zillion_suffix (n : Nat) : Option String :=
  match single_zillion_suffix_cache n with
  | some s => some s
  | none => single_zillion_general n

/-- The `while n > 0` loop of `zillion_suffix` (numbernames.py lines 94-97),
collecting `partial_single_zillion_suffix(n % 1000)` least-significant group
first.  The loop terminates because `n //= 1000` strictly shrinks `n`; here
the recursion is made structural on a fuel argument, and since each step
consumes one unit of fuel while `n` at least halves, starting the fuel at `n`
itself can never run out (the `none` on fuel exhaustion is unreachable for
`fuel ≥ n`, which `zillion_suffix` below always supplies). -/
def zillionPartsFuel : Nat → Nat → Option (List String)
  | _, 0 => some []
  | 0, _ + 1 => none
  | fuel + 1, n + 1 => do
    let p ← single_zillion_suffix ((n + 1) % 1000)
    let rest ← zillionPartsFuel fuel ((n + 1) / 1000)
    pure (p :: rest)

/-- Function `zillion_suffix` (numbernames.py lines 89-98): the name of the `n`-th
zillion, i.e. of 10^(3n+3).  Cache hit for `n ≤ 9`; otherwise the base-1000
groups are joined most-significant first and `"on"` is appended once. -/
def zillion_suffix (n : Nat) : Option String :=
  match zillion_suffix_cache n with
  | some s => some s
  | none =>
    (zillionPartsFuel n n).map (fun parts => String.join parts.reverse ++ "on")

/-- Function `name_of_units` (numbernames.py lines 132-149): the English name of a
three-digit group.  `tuple(n[::-1])` unpacks into exactly three characters,
so any group whose length is not 3 raises (`none` here); `name_of_units_cache`
is consulted on line 134 but never written, so it is always empty and the
lookup is a no-op. -/
def name_of_units : List Char → Option String
  | [hundreds, tens, units] => do
    let name1 ←
      if hundreds ≠ '0' then do
        let w ← UnitNames.UNITS hundreds
        pure (w ++ " hundred" ++ (if ¬(tens = '0' ∧ units = '0') then " and " else ""))
      else pure ""
    if units ≠ '0' ∧ tens = '1' then do
      let w ← UnitNames.TEENS units
      pure (name1 ++ w)
    else
      let tname := UnitNames.TENS tens
      let uname := UnitNames.UNITS units
      let name2 := name1 ++ tname.getD ""
      pure (match uname with
        | none => name2
        | some u => name2 ++ (if tname.isSome then " " ++ u else u))
  | _ => none

/-- Chunk a list into runs of three from the left, remainder last.  Helper
for the group split below. -/
def chunks3 : List Char → List (List Char)
  | [] => []
  | [a] => [[a]]
  | [a, b] => [[a, b]]
  | a :: b :: c :: rest => [a, b, c] :: chunks3 rest

/-- The group split of `name_of` (numbernames.py line 65):
`list(reversed([n[max(0, i - 3):i] for i in range(len(n), 0, -3)]))` —
three-digit groups taken from the right, most significant group (of length
1-3) first, characters of each group in original order. -/
def n_split (l : List Char) : List (List Char) :=
  ((chunks3 l.reverse).map List.reverse).reverse

/-- The padding step of `name_of` (numbernames.py lines 66-67): left-pad the
most significant group with `'0'` to length 3.  Indexing `n_split[0]` of an
empty split raises (`none` here). -/
def n_split_padded (l : List Char) : Option (List (List Char)) :=
  match n_split l with
  | [] => none
  | g :: rest => some ((List.replicate (3 - g.length) '0' ++ g) :: rest)

/-- The loop of `name_of` over every group but the last (numbernames.py
lines 70-72): group `i` (0-indexed, most-significant first, `k` groups in
total) contributes `name_of_units(part) + ' ' + zillion_suffix(k - i - 2)`,
unconditionally — including when the group's unit-name is empty. -/
def zillionGroupNames : List (List Char) → Nat → Nat → Option (List String)
  | [], _, _ => some []
  | p :: rest, i, k => do
    let u ← name_of_units p
    let z ← zillion_suffix (k - i - 2)
    let tail ← zillionGroupNames rest (i + 1) k
    pure ((u ++ " " ++ z) :: tail)

/-- Python's substring test `pat in s`, specialised to lists of characters:
does `pat` occur contiguously in `s`? -/
def hasInfix (pat : List Char) : List Char → Bool
  | [] => pat.isEmpty
  | c :: rest => pat.isPrefixOf (c :: rest) || hasInfix pat rest

/-- The body of `name_of` after input validation and zero-stripping
(numbernames.py lines 65-77): split into groups, pad, name every group but
the last with its scale-word, name the last group, prefix it with `"and "`
when there is an earlier group and the last name is nonempty and does not
already contain `" and "`, and join everything with the separator. -/
def name_of_stripped (l : List Char) (sep : String) : Option String := do
  let ns ← n_split_padded l
  let k := ns.length
  let znames ← zillionGroupNames ns.dropLast 0 k
  let lastGroup ← ns.getLast?
  let uname ← name_of_units lastGroup
  let uname2 :=
    if znames ≠ [] ∧ uname ≠ "" ∧ hasInfix " and ".toList uname.toList = false
    then "and " ++ uname else uname
  pure (String.intercalate sep (znames ++ [uname2]))

/-- Function `name_of` with `use_cache=False` (numbernames.py lines 56-77, skipping
the cache lookup on line 58 and the store on line 79): validate that the
input is a nonempty all-digit string (Python `str.isdigit`, restricted to
ASCII, is exactly that), special-case the all-zero string, then strip
leading zeros and hand over to the group machinery. -/
def name_of_pure (n : List Char) (sep : String) : Option String :=
  if n.isEmpty || !(n.all Char.isDigit) then some "not an integer"
  else if n.all (fun c => c == '0') then some "zero"
  else name_of_stripped (n.dropWhile (fun c => c == '0')) sep

/-- The type of `name_of_cache` (numbernames.py line 53): an association
list, most recent binding first (a later `name_of_cache[n] = ...` update is
modelled by consing, and lookup takes the first match). -/
abbrev Cache : Type := List (List Char × String)

/-- Dictionary lookup in the memo cache. -/
def Cache.find (c : Cache) (n : List Char) : Option String :=
  List.lookup n c

/-- Function `name_of` (numbernames.py lines 56-80) with the process-wide
`name_of_cache` made explicit: returns the computed name together with the
cache left behind.  Note that the key stored on line 79 is the
zero-**stripped** input (line 64 rebinds `n`), and that the cache key does
not include the separator. -/
def name_of (n : List Char) (use_cache : Bool) (sep : String) (cache : Cache) :
    Option String × Cache :=
  if use_cache = true ∧ (cache.find n).isSome = true then (cache.find n, cache)
  else if n.isEmpty || !(n.all Char.isDigit) then (some "not an integer", cache)
  else if n.all (fun c => c == '0') then (some "zero", cache)
  else
    match name_of_stripped (n.dropWhile (fun c => c == '0')) sep with
    | some r => (some r,
        if use_cache then (n.dropWhile (fun c => c == '0'), r) :: cache else cache)
    | none => (none, cache)

/-- A cache state is valid for a separator when every entry records exactly
the name the cache-free computation assigns to its key.  Every cache state
reachable by `name_of` calls with this separator is valid (proved below). -/
def ValidCache (sep : String) (c : Cache) : Prop :=
  ∀ k v, (k, v) ∈ c → name_of_pure k sep = some v


/-! ## Helper lemmas -/

/-- A character accepted by `Char.isDigit` is one of the ten ASCII digits. -/
theorem digit_char_eq (c : Char) (h : c.isDigit = true) :
    c = '0' ∨ c = '1' ∨ c = '2' ∨ c = '3' ∨ c = '4' ∨ c = '5' ∨ c = '6' ∨
    c = '7' ∨ c = '8' ∨ c = '9' := by
  simp only [Char.isDigit, ge_iff_le, Bool.and_eq_true, decide_eq_true_eq] at h
  obtain ⟨h1, h2⟩ := h
  have hv1 : 48 ≤ c.val.toNat := h1
  have hv2 : c.val.toNat ≤ 57 := h2
  have hc : c.val.toNat = 48 ∨ c.val.toNat = 49 ∨ c.val.toNat = 50 ∨
      c.val.toNat = 51 ∨ c.val.toNat = 52 ∨ c.val.toNat = 53 ∨
      c.val.toNat = 54 ∨ c.val.toNat = 55 ∨ c.val.toNat = 56 ∨
      c.val.toNat = 57 := by omega
  rcases hc with h | h | h | h | h | h | h | h | h | h <;>
    [left; (right; left); (right; right; left); (right; right; right; left);
     (right; right; right; right; left);
     (right; right; right; right; right; left);
     (right; right; right; right; right; right; left);
     (right; right; right; right; right; right; right; left);
     (right; right; right; right; right; right; right; right; left);
     (right; right; right; right; right; right; right; right; right)] <;>
    exact Char.ext (UInt32.ext h)

/-! ## Claim theorems: concrete evaluations -/

/-- C1 (code evaluated at the failing input): for the zillion index 27 the
units stem is `"septe"` and the tens stem `"viginti"` lies in the set `M`,
so by the claim the synthesised partial prefix should begin `"septem"`.
The code instead leaves the units stem unmodified — line 119 tests
membership in `{'setpe', 'nove'}`, where `'setpe'` is a transposition typo
for `'septe'`, so the septe-branch of the euphonic correction can never
fire — while the `"nove"` half of the same rule does work (index 29). -/
theorem single_zillion_suffix_setpe_typo :
    single_zillion_suffix 27 = some "septevigintilli" ∧
    List.isPrefixOf "septem".toList "septevigintilli".toList = false ∧
    single_zillion_suffix 29 = some "novemvigintilli" := by decide

/-- C2 (code evaluated at the failing input): the claim (with the spec) says
a `000` group before the last contributes nothing — not even its scale-word —
so `name_of("1000000")` should be `"one million"`.  The loop on lines 70-72
appends `name_of_units(part) + ' ' + zillion_suffix(...)` unconditionally,
so the zero thousands-group contributes `" thousand"` and the empty last
group is also joined in, giving `"one million  thousand "` (double space,
trailing space). -/
theorem name_of_zero_group_not_skipped :
    name_of_pure "1000000".toList " " = some "one million  thousand " ∧
    name_of_pure "1000000".toList " " ≠ some "one million" := by decide

/-- C3 counterexample: the claim `suffix_for(10) == "undecillion"` is false
of the code: the 10th zillion is `"decillion"`. -/
theorem zillion_suffix_ten_ne_undecillion :
    zillion_suffix 10 ≠ some "undecillion" := by decide

/-- C3 amended: the synthesized scale-word for zillion index 10 is
`"decillion"`; the attested form `"undecillion"` is the 11th zillion. -/
theorem zillion_suffix_ten_eq_decillion :
    zillion_suffix 10 = some "decillion" ∧
    zillion_suffix 11 = some "undecillion" := by decide

/-- C8: end-to-end with the default single-space separator,
`name_of("1002051")` is `"one million two thousand and fifty one"`. -/
theorem name_of_end_to_end :
    name_of_pure "1002051".toList " " =
      some "one million two thousand and fifty one" := by decide

/-- C9: boundary cases of the three-digit group namer `name_of_units`. -/
theorem name_of_units_boundary_cases :
    name_of_units "000".toList = some "" ∧
    name_of_units "005".toList = some "five" ∧
    name_of_units "015".toList = some "fifteen" ∧
    name_of_units "105".toList = some "one hundred and five" ∧
    name_of_units "100".toList = some "one hundred" := by decide

/-- C4 counterexample: the special-cased table and the general rule do not
agree on all of 0..9: at `v = 1` the table (`partial_single_zillion_suffix`,
which for `v ≤ 9` returns the cached entry) gives `"milli"` while the
general rule gives `"uilli"`. -/
theorem single_zillion_general_ne_cache_at_one :
    single_zillion_general 1 ≠ single_zillion_suffix 1 := by decide

/-- C4 amended: on `0 ≤ v ≤ 9` the general rule (stem lookup, euphonic
correction, concatenation, drop the final character, append `"illi"`) agrees
with the special-cased table exactly for `v ∈ {3, 7, 8}`; on the other seven
indices the two definitions differ (e.g. table `"milli"` vs rule `"uilli"`
at `v = 1`). -/
theorem single_zillion_general_eq_cache_iff (v : Nat) (h : v ≤ 9) :
    single_zillion_general v = single_zillion_suffix v ↔
      (v = 3 ∨ v = 7 ∨ v = 8) := by
  interval_cases v <;> decide

/-- Witness for `single_zillion_general_eq_cache_iff` at `v = 3`. -/
theorem single_zillion_general_eq_cache_iff_witness :
    3 ≤ 9 ∧ (single_zillion_general 3 = single_zillion_suffix 3 ↔
      (3 = 3 ∨ 3 = 7 ∨ 3 = 8)) :=
  ⟨by decide, single_zillion_general_eq_cache_iff 3 (by decide)⟩


/-- C5 counterexample: the claim includes the empty string among the inputs
that name to `"zero"`, but the `isdigit` test on line 60 rejects the empty
string (Python's `str.isdigit` is false on `""`) before the all-zero check
on line 62 is reached, so `name_of("")` is `"not an integer"`. -/
theorem name_of_empty_ne_zero : name_of_pure [] " " ≠ some "zero" := by decide

/-- C5 amended: for every input of length at least 1 consisting only of
`'0'` characters, `name_of` returns `"zero"`; the empty string instead
returns `"not an integer"` (it fails the digit test first). -/
theorem name_of_all_zeros (n : List Char) (sep : String) (h1 : n ≠ [])
    (h2 : n.all (fun c => c == '0') = true) :
    name_of_pure n sep = some "zero" ∧
    name_of_pure [] sep = some "not an integer" := by
  have hd : n.all Char.isDigit = true := by
    rw [List.all_eq_true] at h2 ⊢
    intro c hc
    have h0 : c = '0' := by
      have := h2 c hc
      rwa [beq_iff_eq] at this
    rw [h0]
    decide
  have he : n.isEmpty = false := by
    cases n with
    | nil => exact absurd rfl h1
    | cons a l => rfl
  constructor
  · simp [name_of_pure, he, hd, h2]
  · rfl

/-- Witness for `name_of_all_zeros` at `n = "0"`. -/
theorem name_of_all_zeros_witness :
    "0".toList ≠ [] ∧ "0".toList.all (fun c => c == '0') = true ∧
    (name_of_pure "0".toList " " = some "zero" ∧
     name_of_pure [] " " = some "not an integer") :=
  ⟨by decide, by decide, name_of_all_zeros "0".toList " " (by decide) (by decide)⟩

/-- C7: an input containing any character that is not an ASCII decimal digit
fails the `isdigit` test on line 60, so `name_of` returns the sentinel
`"not an integer"`; in particular the computation completes (a `some`
result, never an exception). -/
theorem name_of_non_digit (n : List Char) (sep : String) (c : Char)
    (hc : c ∈ n) (hd : c.isDigit = false) :
    name_of_pure n sep = some "not an integer" := by
  have hall : n.all Char.isDigit = false := by
    rw [← Bool.not_eq_true, List.all_eq_true]
    intro h
    have := h c hc
    rw [hd] at this
    exact Bool.false_ne_true this
  have : (n.isEmpty || !(n.all Char.isDigit)) = true := by
    rw [hall]
    simp
  rw [name_of_pure, if_pos this]

/-- Witness for `name_of_non_digit` at `n = "12a"`. -/
theorem name_of_non_digit_witness :
    'a' ∈ "12a".toList ∧ Char.isDigit 'a' = false ∧
    name_of_pure "12a".toList " " = some "not an integer" :=
  ⟨by decide, by decide, name_of_non_digit "12a".toList " " 'a' (by decide) (by decide)⟩


/-! ## Totality of the pipeline on all-digit input (C10) -/

/-- Table lookup `UnitNames.UNITS[c]` succeeds for every nonzero digit. -/
theorem UNITS_isSome_of_digit (c : Char) (h : c.isDigit = true) (h0 : c ≠ '0') :
    (UnitNames.UNITS c).isSome = true := by
  rcases digit_char_eq c h with h' | h' | h' | h' | h' | h' | h' | h' | h' | h' <;>
    subst h' <;> first | exact absurd rfl h0 | rfl

/-- Table lookup `UnitNames.TEENS[c]` succeeds for every nonzero digit. -/
theorem TEENS_isSome_of_digit (c : Char) (h : c.isDigit = true) (h0 : c ≠ '0') :
    (UnitNames.TEENS c).isSome = true := by
  rcases digit_char_eq c h with h' | h' | h' | h' | h' | h' | h' | h' | h' | h' <;>
    subst h' <;> first | exact absurd rfl h0 | rfl

/-- Every group of exactly three digit characters has a name: all dictionary
lookups in `name_of_units` stay inside their key domains. -/
theorem name_of_units_isSome (g : List Char) (hlen : g.length = 3)
    (hd : ∀ c ∈ g, c.isDigit = true) : (name_of_units g).isSome = true := by
  obtain ⟨a, b, c2, rfl⟩ := List.length_eq_three.mp hlen
  have hda := hd a (by simp)
  have hdc := hd c2 (by simp)
  by_cases ha : a = '0' <;> by_cases hP : c2 ≠ '0' ∧ b = '1'
  · obtain ⟨w2, hw2⟩ := Option.isSome_iff_exists.mp (TEENS_isSome_of_digit c2 hdc hP.1)
    simp [name_of_units, ha, hP, hw2]
  · simp [name_of_units, ha, hP]
  · obtain ⟨w, hw⟩ := Option.isSome_iff_exists.mp (UNITS_isSome_of_digit a hda ha)
    obtain ⟨w2, hw2⟩ := Option.isSome_iff_exists.mp (TEENS_isSome_of_digit c2 hdc hP.1)
    simp [name_of_units, ha, hP, hw, hw2]
  · obtain ⟨w, hw⟩ := Option.isSome_iff_exists.mp (UNITS_isSome_of_digit a hda ha)
    simp [name_of_units, ha, hP, hw]

/-- Table lookup `ZillionNames.UNITS[k]` succeeds for `k ≤ 9`. -/
theorem ZN_UNITS_isSome (k : Nat) (h : k ≤ 9) :
    (ZillionNames.UNITS k).isSome = true := by
  interval_cases k <;> rfl

/-- Table lookup `ZillionNames.TENS[k]` succeeds for `k ≤ 9`. -/
theorem ZN_TENS_isSome (k : Nat) (h : k ≤ 9) :
    (ZillionNames.TENS k).isSome = true := by
  interval_cases k <;> rfl

/-- Table lookup `ZillionNames.HUNDREDS[k]` succeeds for `k ≤ 9`. -/
theorem ZN_HUNDREDS_isSome (k : Nat) (h : k ≤ 9) :
    (ZillionNames.HUNDREDS k).isSome = true := by
  interval_cases k <;> rfl

/-- The general prefix builder succeeds on every `n ≤ 999`: the three
positional digits all lie in the tables' key domains. -/
theorem single_zillion_general_isSome (n : Nat) (h : n ≤ 999) :
    (single_zillion_general n).isSome = true := by
  obtain ⟨u, hu⟩ := Option.isSome_iff_exists.mp (ZN_UNITS_isSome (n % 10) (by omega))
  obtain ⟨t, ht⟩ := Option.isSome_iff_exists.mp (ZN_TENS_isSome (n % 100 / 10) (by omega))
  obtain ⟨hh, hhh⟩ := Option.isSome_iff_exists.mp (ZN_HUNDREDS_isSome (n / 100) (by omega))
  simp [single_zillion_general, hu, ht, hhh]

/-- Function `partial_single_zillion_suffix` succeeds on every `n ≤ 999`. -/
theorem single_zillion_suffix_isSome (n : Nat) (h : n ≤ 999) :
    (single_zillion_suffix n).isSome = true := by
  rcases hcache : single_zillion_suffix_cache n with _ | s
  · simp [single_zillion_suffix, hcache, single_zillion_general_isSome n h]
  · simp [single_zillion_suffix, hcache]

/-- The base-1000 decomposition loop always succeeds when given at least as
much fuel as its argument: the fuel-exhaustion branch is unreachable because
`n / 1000 < n` keeps the invariant `n ≤ fuel` through every iteration (this
is the termination argument for `n //= 1000` in the source). -/
theorem zillionPartsFuel_isSome : ∀ (fuel n : Nat), n ≤ fuel →
    (zillionPartsFuel fuel n).isSome = true := by
  intro fuel
  induction fuel with
  | zero =>
    intro n h
    interval_cases n
    rfl
  | succ f ih =>
    intro n h
    match n with
    | 0 => rfl
    | m + 1 =>
      obtain ⟨p, hp⟩ := Option.isSome_iff_exists.mp
        (single_zillion_suffix_isSome ((m + 1) % 1000) (by omega))
      obtain ⟨rest, hrest⟩ := Option.isSome_iff_exists.mp (ih ((m + 1) / 1000) (by omega))
      simp [zillionPartsFuel, hp, hrest]

/-- Function `zillion_suffix` succeeds on every zillion index. -/
theorem zillion_suffix_isSome (n : Nat) : (zillion_suffix n).isSome = true := by
  rcases hcache : zillion_suffix_cache n with _ | s
  · obtain ⟨parts, hp⟩ := Option.isSome_iff_exists.mp (zillionPartsFuel_isSome n n le_rfl)
    simp [zillion_suffix, hcache, hp]
  · simp [zillion_suffix, hcache]

/-- Structure of the chunking step: a nonempty list splits into some number
of three-character runs followed by a final run of one to three characters. -/
theorem chunks3_struct : ∀ l : List Char, l ≠ [] →
    ∃ ys z, chunks3 l = ys ++ [z] ∧ (∀ g ∈ ys, g.length = 3) ∧
      1 ≤ z.length ∧ z.length ≤ 3
  | [], h => absurd rfl h
  | [a], _ => ⟨[], [a], rfl, by simp, by simp, by simp⟩
  | [a, b], _ => ⟨[], [a, b], rfl, by simp, by simp, by simp⟩
  | a :: b :: c :: rest, _ => by
    by_cases hr : rest = []
    · subst hr
      exact ⟨[], [a, b, c], rfl, by simp, by simp, by simp⟩
    · obtain ⟨ys, z, h1, h2, h3, h4⟩ := chunks3_struct rest hr
      refine ⟨[a, b, c] :: ys, z, by simp [chunks3, h1], ?_, h3, h4⟩
      intro g hg
      rcases List.mem_cons.mp hg with rfl | hg
      · rfl
      · exact h2 g hg

/-- Every character of every chunk comes from the chunked list. -/
theorem chunks3_mem_subset : ∀ (l : List Char) (g : List Char), g ∈ chunks3 l →
    ∀ c ∈ g, c ∈ l
  | [], g, hg => by simp [chunks3] at hg
  | [a], g, hg => by
    simp only [chunks3, List.mem_singleton] at hg
    subst hg
    exact fun c hc => hc
  | [a, b], g, hg => by
    simp only [chunks3, List.mem_singleton] at hg
    subst hg
    exact fun c hc => hc
  | a :: b :: c :: rest, g, hg => by
    simp only [chunks3, List.mem_cons] at hg
    rcases hg with rfl | hg
    · intro x hx
      simp only [List.mem_cons] at hx ⊢
      tauto
    · intro x hx
      have := chunks3_mem_subset rest g hg x hx
      simp [this]

/-- Structure of the group split of `name_of`: for a nonempty digit list the
split is a most-significant group of one to three characters followed by
groups of exactly three, all characters drawn from the input. -/
theorem n_split_struct (l : List Char) (h : l ≠ []) :
    ∃ z rest, n_split l = z :: rest ∧ 1 ≤ z.length ∧ z.length ≤ 3 ∧
      (∀ g ∈ rest, g.length = 3) ∧ (∀ g ∈ n_split l, ∀ c ∈ g, c ∈ l) := by
  have hrev : l.reverse ≠ [] := by simpa using h
  obtain ⟨ys, z0, h1, h2, h3, h4⟩ := chunks3_struct l.reverse hrev
  have hsplit : n_split l = z0.reverse :: ((ys.map List.reverse).reverse) := by
    rw [n_split, h1]
    simp
  refine ⟨z0.reverse, (ys.map List.reverse).reverse, hsplit, by simpa using h3,
    by simpa using h4, ?_, ?_⟩
  · intro g hg
    rw [List.mem_reverse, List.mem_map] at hg
    obtain ⟨g0, hg0, rfl⟩ := hg
    simpa using h2 g0 hg0
  · intro g hg c hc
    rw [n_split, List.mem_reverse, List.mem_map] at hg
    obtain ⟨g0, hg0, rfl⟩ := hg
    rw [List.mem_reverse] at hc
    have := chunks3_mem_subset l.reverse g0 hg0 c hc
    simpa using this

/-- The padded group split of a nonempty all-digit list succeeds and yields
a nonempty list of groups, each exactly three digit characters long. -/
theorem n_split_padded_spec (l : List Char) (h : l ≠ [])
    (hd : ∀ c ∈ l, c.isDigit = true) :
    ∃ gs, n_split_padded l = some gs ∧ gs ≠ [] ∧
      ∀ g ∈ gs, g.length = 3 ∧ ∀ c ∈ g, c.isDigit = true := by
  obtain ⟨z, rest, h1, h2, h3, h4, h5⟩ := n_split_struct l h
  refine ⟨(List.replicate (3 - z.length) '0' ++ z) :: rest, ?_, by simp, ?_⟩
  · rw [n_split_padded, h1]
  · intro g hg
    rcases List.mem_cons.mp hg with rfl | hg
    · constructor
      · simp
        omega
      · intro c hc
        rcases List.mem_append.mp hc with hc | hc
      
        · have := List.eq_of_mem_replicate hc
          subst this
          decide
        · exact hd c (h5 z (h1 ▸ List.mem_cons_self _ _) c hc)
    · refine ⟨h4 g hg, fun c hc => hd c (h5 g (h1 ▸ List.mem_cons_of_mem _ hg) c hc)⟩

/-- The per-group loop of `name_of` succeeds on any list of three-digit
groups: the group namer and the zillion suffix lookups always succeed. -/
theorem zillionGroupNames_isSome : ∀ (parts : List (List Char)) (i k : Nat),
    (∀ g ∈ parts, g.length = 3 ∧ ∀ c ∈ g, c.isDigit = true) →
    (zillionGroupNames parts i k).isSome = true
  | [], _, _, _ => rfl
  | p :: rest, i, k, h => by
    obtain ⟨u, hu⟩ := Option.isSome_iff_exists.mp
      (name_of_units_isSome p (h p (List.mem_cons_self _ _)).1 (h p (List.mem_cons_self _ _)).2)
    obtain ⟨z, hz⟩ := Option.isSome_iff_exists.mp (zillion_suffix_isSome (k - i - 2))
    obtain ⟨tl, htl⟩ := Option.isSome_iff_exists.mp
      (zillionGroupNames_isSome rest (i + 1) k (fun g hg => h g (List.mem_cons_of_mem _ hg)))
    simp [zillionGroupNames, hu, hz, htl]

/-- The whole post-validation body of `name_of` succeeds on any nonempty
all-digit input. -/
theorem name_of_stripped_isSome (l : List Char) (h : l ≠ [])
    (hd : ∀ c ∈ l, c.isDigit = true) (sep : String) :
    (name_of_stripped l sep).isSome = true := by
  obtain ⟨gs, hgs, hne, hall⟩ := n_split_padded_spec l h hd
  obtain ⟨zn, hzn⟩ := Option.isSome_iff_exists.mp
    (zillionGroupNames_isSome gs.dropLast 0 gs.length
      (fun g hg => hall g (List.dropLast_subset _ hg)))
  have hlg : gs.getLast? = some (gs.getLast hne) := List.getLast?_eq_getLast gs hne
  have hlgmem : gs.getLast hne ∈ gs := List.getLast_mem hne
  obtain ⟨un, hun⟩ := Option.isSome_iff_exists.mp
    (name_of_units_isSome (gs.getLast hne) (hall _ hlgmem).1 (hall _ hlgmem).2)
  simp [name_of_stripped, hgs, hzn, hlg, hun]


/-- The head of a `dropWhile` result fails the predicate. -/
theorem dropWhile_head_false {p : Char → Bool} :
    ∀ (l : List Char) (c : Char) (cs : List Char),
      l.dropWhile p = c :: cs → p c = false
  | [], c, cs, h => by simp [List.dropWhile] at h
  | a :: l, c, cs, h => by
    rw [List.dropWhile] at h
    rcases hpa : p a with _ | _
    · rw [hpa] at h
      cases h
      exact hpa
    · rw [hpa] at h
      exact dropWhile_head_false l c cs h

/-- Stripping leading zeros twice is the same as stripping them once. -/
theorem dropWhile_idem {p : Char → Bool} (l : List Char) :
    (l.dropWhile p).dropWhile p = l.dropWhile p := by
  rcases hl : l.dropWhile p with _ | ⟨c, cs⟩
  · rfl
  · rw [List.dropWhile, dropWhile_head_false l c cs hl]

/-- C10: on every nonempty all-digit input, `name_of` runs to completion —
no dictionary lookup in `name_of`, `name_of_units`, `zillion_suffix` or
`partial_single_zillion_suffix` leaves its key domain (a `some` result) —
and every group produced by the split-and-pad step and handed to
`name_of_units` is a list of exactly 3 digit characters. -/
theorem name_of_total (n : List Char) (sep : String) (h1 : n ≠ [])
    (h2 : ∀ c ∈ n, c.isDigit = true) :
    (name_of_pure n sep).isSome = true ∧
    ∀ gs, n_split_padded (n.dropWhile (fun c => c == '0')) = some gs →
      ∀ g ∈ gs, g.length = 3 ∧ ∀ c ∈ g, c.isDigit = true := by
  have he : n.isEmpty = false := by
    cases n with
    | nil => exact absurd rfl h1
    | cons a l => rfl
  have hdall : n.all Char.isDigit = true := List.all_eq_true.mpr h2
  by_cases hz : n.all (fun c => c == '0') = true
  · constructor
    · simp [name_of_pure, he, hdall, hz]
    · intro gs hgs
      have hnil : n.dropWhile (fun c => c == '0') = [] :=
        List.dropWhile_eq_nil_iff.mpr (List.all_eq_true.mp hz)
      rw [hnil] at hgs
      simp [n_split_padded, n_split, chunks3] at hgs
  · have hlne : n.dropWhile (fun c => c == '0') ≠ [] := by
      intro hl
      exact hz (List.all_eq_true.mpr (List.dropWhile_eq_nil_iff.mp hl))
    have hld : ∀ c ∈ n.dropWhile (fun c => c == '0'), c.isDigit = true :=
      fun c hc => h2 c ((List.dropWhile_sublist _).subset hc)
    obtain ⟨gs0, hgs0, _, hall0⟩ := n_split_padded_spec _ hlne hld
    constructor
    · have hs := name_of_stripped_isSome _ hlne hld sep
      simp [name_of_pure, he, hdall, hz, hs]
    · intro gs hgs
      rw [hgs0] at hgs
      cases hgs
      exact hall0

/-- Witness for `name_of_total` at the input `"7"`. -/
theorem name_of_total_witness :
    "7".toList ≠ [] ∧ (∀ c ∈ "7".toList, c.isDigit = true) ∧
    ((name_of_pure "7".toList " ").isSome = true ∧
     ∀ gs, n_split_padded ("7".toList.dropWhile (fun c => c == '0')) = some gs →
       ∀ g ∈ gs, g.length = 3 ∧ ∀ c ∈ g, c.isDigit = true) :=
  ⟨by decide, by decide, name_of_total "7".toList " " (by decide) (by decide)⟩


/-! ## The memo cache (C6) -/

/-- With `use_cache=False`, `name_of` computes the cache-free result and
leaves the cache untouched. -/
theorem name_of_false (n : List Char) (sep : String) (c : Cache) :
    name_of n false sep c = (name_of_pure n sep, c) := by
  rw [name_of, name_of_pure,
    if_neg (show ¬(false = true ∧ (Cache.find c n).isSome = true) by simp)]
  by_cases h1 : (n.isEmpty || !(n.all Char.isDigit)) = true
  · rw [if_pos h1, if_pos h1]
  · rw [if_neg h1, if_neg h1]
    by_cases h2 : (n.all (fun x => x == '0')) = true
    · rw [if_pos h2, if_pos h2]
    · rw [if_neg h2, if_neg h2]
      rcases hs : name_of_stripped (n.dropWhile (fun x => x == '0')) sep with _ | r <;>
        rfl

/-- A lookup hit in a valid cache returns exactly the cache-free result. -/
theorem find_valid (sep : String) : ∀ (c : Cache), ValidCache sep c →
    ∀ (n : List Char) (v : String),
      Cache.find c n = some v → name_of_pure n sep = some v
  | [], _, n, v, h => by simp [Cache.find, List.lookup] at h
  | (k, w) :: rest, hval, n, v, h => by
    rw [Cache.find, List.lookup] at h
    rcases hb : (n == k) with _ | _
    · rw [hb] at h
      exact find_valid sep rest
        (fun k' v' hm => hval k' v' (List.mem_cons_of_mem _ hm)) n v h
    · rw [hb] at h
      injection h with hwv
      subst hwv
      have hk : n = k := by rwa [beq_iff_eq] at hb
      subst hk
      exact hval n w (List.mem_cons_self _ _)

/-- On an input that reaches the group machinery, the cache-free `name_of`
of the zero-stripped input equals the group machinery answer on it: the
stripped string is nonempty, all digits, not all zeros, and stripping it
again changes nothing.  This is what makes the store on line 79 (which keys
by the stripped input) record a correct entry. -/
theorem name_of_pure_stripped (n : List Char) (sep : String)
    (hne : n.dropWhile (fun x => x == '0') ≠ [])
    (hd : n.all Char.isDigit = true) :
    name_of_pure (n.dropWhile (fun x => x == '0')) sep =
      name_of_stripped (n.dropWhile (fun x => x == '0')) sep := by
  set l := n.dropWhile (fun x => x == '0') with hl
  obtain ⟨c0, cs, hcons⟩ : ∃ c0 cs, l = c0 :: cs := by
    rcases hll : l with _ | ⟨c0, cs⟩
    · exact absurd hll hne
    · exact ⟨c0, cs, rfl⟩
  have hdw : List.dropWhile (fun x => x == '0') n = c0 :: cs := hl.symm.trans hcons
  have hc0 : (c0 == '0') = false := dropWhile_head_false n c0 cs hdw
  have hemp : l.isEmpty = false := by rw [hcons]; rfl
  have hld : l.all Char.isDigit = true := by
    rw [List.all_eq_true] at hd ⊢
    exact fun c hc => hd c ((List.dropWhile_sublist _).subset (hl ▸ hc))
  have hlz : l.all (fun x => x == '0') = false := by
    rw [hcons]
    simp [hc0]
  rw [name_of_pure, if_neg (by simp [hemp, hld]), if_neg (by simp [hlz])]
  rw [show l.dropWhile (fun x => x == '0') = l from hl ▸ dropWhile_idem n]

/-- With `use_cache=True` and any valid starting cache, `name_of` returns
the cache-free result and leaves a valid cache behind. -/
theorem name_of_true_spec (sep : String) (c : Cache) (h : ValidCache sep c)
    (n : List Char) :
    (name_of n true sep c).1 = name_of_pure n sep ∧
    ValidCache sep (name_of n true sep c).2 := by
  by_cases hhit : (Cache.find c n).isSome = true
  · obtain ⟨v, hv⟩ := Option.isSome_iff_exists.mp hhit
    rw [name_of, if_pos ⟨rfl, hhit⟩]
    exact ⟨by rw [hv, find_valid sep c h n v hv], h⟩
  · rw [name_of, if_neg (fun hco => hhit hco.2), name_of_pure]
    by_cases h1 : (n.isEmpty || !(n.all Char.isDigit)) = true
    · rw [if_pos h1, if_pos h1]
      exact ⟨rfl, h⟩
    · rw [if_neg h1, if_neg h1]
      by_cases h2 : (n.all (fun x => x == '0')) = true
      · rw [if_pos h2, if_pos h2]
        exact ⟨rfl, h⟩
      · rw [if_neg h2, if_neg h2]
        have hd : n.all Char.isDigit = true := by
          rcases hna : n.all Char.isDigit with _ | _
          · exfalso
            apply h1
            rw [hna]
            simp
          · rfl
        have hz : n.all (fun x => x == '0') = false := by
          rcases hb : n.all (fun x => x == '0') with _ | _
          · rfl
          · exact absurd hb h2
        have hlne : n.dropWhile (fun x => x == '0') ≠ [] := by
          intro hl
          have hall := List.all_eq_true.mpr (List.dropWhile_eq_nil_iff.mp hl)
          rw [hz] at hall
          exact Bool.false_ne_true hall
        rcases hs : name_of_stripped (n.dropWhile (fun x => x == '0')) sep with _ | r
        · exact ⟨rfl, h⟩
        · refine ⟨rfl, ?_⟩
          intro k v hm
          have hm2 : (k, v) ∈ (List.dropWhile (fun x => x == '0') n, r) :: c := hm
          rcases List.mem_cons.mp hm2 with heq | hm3
          · rw [Prod.mk.injEq] at heq
            obtain ⟨rfl, rfl⟩ := heq
            exact (name_of_pure_stripped n sep hlne hd).trans hs
          · exact h k v hm3

/-- C6 counterexample: the cache key ignores the separator, so prior cache
contents produced with one separator leak into calls made with another.
After `name_of("1002051", sep=" ")` has populated the cache, a
cache-enabled call with `sep="\n"` returns the space-joined name from the
cache, while the cache-disabled call computes the newline-joined name. -/
theorem name_of_cache_sep_leak :
    (name_of "1002051".toList true "\n"
        (name_of "1002051".toList true " " []).2).1 ≠
      (name_of "1002051".toList false "\n"
        (name_of "1002051".toList true " " []).2).1 := by decide

/-- C6 amended: fix a separator; then starting from any cache whose entries
were produced by `name_of` calls with that same separator (`ValidCache`),
a cache-enabled call returns the same string as a cache-disabled call, the
cache stays valid, and a second identical call returns the identical
string.  All cache states the program can reach with a single separator are
valid, so within one separator the memo cache never changes the computed
name; across different separators it can (see the counterexample), because
the cache key omits the separator. -/
theorem name_of_cache_consistent (sep : String) (c : Cache)
    (h : ValidCache sep c) (n : List Char) :
    (name_of n true sep c).1 = name_of_pure n sep ∧
    (name_of n false sep c).1 = name_of_pure n sep ∧
    ValidCache sep (name_of n true sep c).2 ∧
    (name_of n true sep ((name_of n true sep c).2)).1 =
      (name_of n true sep c).1 := by
  obtain ⟨h1, h3⟩ := name_of_true_spec sep c h n
  refine ⟨h1, by rw [name_of_false], h3, ?_⟩
  rw [(name_of_true_spec sep _ h3 n).1, h1]

/-- Witness for `name_of_cache_consistent` with the empty cache, `sep=" "`
and input `"42"`. -/
theorem name_of_cache_consistent_witness :
    ValidCache " " ([] : Cache) ∧
    ((name_of "42".toList true " " []).1 = name_of_pure "42".toList " " ∧
     (name_of "42".toList false " " []).1 = name_of_pure "42".toList " " ∧
     ValidCache " " (name_of "42".toList true " " []).2 ∧
     (name_of "42".toList true " " ((name_of "42".toList true " " []).2)).1 =
       (name_of "42".toList true " " []).1) :=
  ⟨fun _ _ hm => absurd hm (List.not_mem_nil _),
   name_of_cache_consistent " " []
     (fun _ _ hm => absurd hm (List.not_mem_nil _)) "42".toList⟩

end NumberNames
